import Mathlib

/-!
A shallow embedding of the SCSS tag scanner (src/scss.c).

The scanner consumes physical lines of source text and drives a
character-level finite state machine, emitting tags for the selector,
class and id clauses it recognizes.  The embedding models a physical
line as a `List Char` with a virtual NUL terminator at index
`l.length`; a read at an index strictly beyond the terminator (or
before index 0, via the previous-character lookback `*(line-1)`) is an
out-of-bounds access and poisons the run with the `ub` outcome, which
still records the tags already handed to the tag sink before the bad
read.  Recursion is driven by an explicit step budget (`fuel`); a run
that exhausts the budget yields the distinct `fuelOut` outcome, so an
`ok`/`ub` result is independent of the budget chosen.
-/

/-- The NUL terminator byte of a C string. -/
def nulChar : Char := Char.ofNat 0

/-- The single-quote character. -/
def singleQuoteChar : Char := Char.ofNat 39

/-- The double-quote character. -/
def doubleQuoteChar : Char := Char.ofNat 34

/-- The backslash character. -/
def backslashChar : Char := Char.ofNat 92

/-- The opening-brace character. -/
def openBraceChar : Char := Char.ofNat 123

/-- The closing-brace character. -/
def closeBraceChar : Char := Char.ofNat 125

/-- C `isspace` on the default locale, for the characters that can occur
in a source line: space, horizontal tab, newline, vertical tab, form
feed, carriage return. -/
def c_isspace (c : Char) : Bool :=
  c = ' ' || c = '\t' || c = '\n' || c = Char.ofNat 11 || c = Char.ofNat 12 || c = '\r'

/-- C `isalnum` on the default locale: ASCII letters and digits. -/
def c_isalnum (c : Char) : Bool :=
  c.isAlpha || c.isDigit

/-- A physical source line, line terminator stripped; the NUL that ends
the C buffer is virtual, at index `length`. -/
abbrev ScssLine := List Char

/-- Reading `line[i]`: a real character below `length`, the terminating
NUL at `length`, and an out-of-bounds access (`none`) beyond it. -/
def lineChar (l : ScssLine) (i : Nat) : Option Char :=
  if h : i < l.length then some (l.get ⟨i, h⟩)
  else if i = l.length then some nulChar
  else none

/-- Reading `line[i]` at a position already known to be in bounds
(`i ≤ length`); the value at the terminator slot is NUL. -/
def lineCharD (l : ScssLine) (i : Nat) : Char :=
  if h : i < l.length then l.get ⟨i, h⟩ else nulChar

/-- The tag kinds of the scanner (`eScssKinds`; `K_NONE` is never
attached to an emitted tag and is omitted). -/
inductive cssKind where
  | K_CLASS
  | K_SELECTOR
  | K_ID
deriving DecidableEq

/-- The parser states (`_ScssParserState`). -/
inductive ScssParserState where
  | P_STATE_NONE
  | P_STATE_IN_COMMENT
  | P_STATE_IN_SINGLE_STRING
  | P_STATE_IN_DOUBLE_STRING
  | P_STATE_IN_DEFINITION
  | P_STATE_IN_MEDIA
  | P_STATE_IN_IMPORT
  | P_STATE_IN_NAMESPACE
  | P_STATE_IN_PAGE
  | P_STATE_IN_FONTFACE
  | P_STATE_AT_END
deriving DecidableEq

/-- A tag record handed to the external sink: a name and a kind. -/
structure ScssTag where
  name : List Char
  kind : cssKind
deriving DecidableEq

/-- Outcome of a scanner run.  `ub` marks a run that performed an
out-of-bounds memory read; it carries the tags already emitted before
the bad access.  `fuelOut` marks an exhausted step budget. -/
inductive ScssOutcome (α : Type) where
  | ok : α → ScssOutcome α
  | ub : List ScssTag → ScssOutcome α
  | fuelOut : ScssOutcome α
deriving DecidableEq

/-- Modelled from the spec: the external string helper
`vStringStripTrailing` (the repository only ships `scss.c`; the helper
lives in the host program) removes trailing whitespace from the
accumulated buffer. -/
def vStringStripTrailing (s : List Char) : List Char :=
  (s.reverse.dropWhile (fun c => c_isspace c)).reverse

/-- `makeScssSimpleTag`: finalize the accumulated buffer into a tag
record; only the `K_CLASS` kind strips trailing whitespace first. -/
def makeScssSimpleTag (name : List Char) (kind : cssKind) : ScssTag :=
  { name := if kind = cssKind.K_CLASS then vStringStripTrailing name else name,
    kind := kind }

/-- `isScssDeclarationAllowedChar`: the characters the declaration
scanner accumulates. -/
def isScssDeclarationAllowedChar (c : Char) : Bool :=
  c_isalnum c ||
  c_isspace c ||
  c = '_' ||
  c = '-' ||
  c = '+' ||
  c = '>' ||
  c = openBraceChar ||
  c = '.' ||
  c = ',' ||
  c = ':' ||
  c = '*' ||
  c = '#'

/-- Result of `parseScssDeclaration`: the single tag it emitted, the
state it reports, the line and offset its `*position` output points at
(`line = none` models the NULL pointer stored at end of input), and the
input lines still unread. -/
structure ScssDeclResult where
  tag : ScssTag
  state : ScssParserState
  line : Option ScssLine
  pos : Nat
  input : List ScssLine
deriving DecidableEq

/-- `parseScssDeclaration`: accumulate one declaration clause starting
at `pos` in line `l`, spanning further input lines when the current one
ends, until a `,` or `{` terminator, a disallowed character, or end of
input; emit exactly one tag.  After fetching a fresh line the C loop
body falls through to `vStringPut`/`++cp`, so the first character of
the new line is appended unconditionally, without being checked against
the terminators; the embedding reproduces that. -/
def parseScssDeclaration :
    Nat → List ScssLine → ScssLine → Nat → List Char → cssKind →
    ScssOutcome ScssDeclResult
  | 0, _, _, _, _, _ => ScssOutcome.fuelOut
  | fuel+1, input, l, pos, name, kind =>
    match lineChar l pos with
    | none => ScssOutcome.ub []
    | some c =>
      if isScssDeclarationAllowedChar c || c = nulChar then
        if c = nulChar then
          match input with
          | [] =>
            ScssOutcome.ok
              ⟨makeScssSimpleTag name kind, ScssParserState.P_STATE_AT_END,
               none, 0, []⟩
          | l2 :: rest =>
            parseScssDeclaration fuel rest l2 1 (name ++ [lineCharD l2 0]) kind
        else if c = ',' then
          ScssOutcome.ok
            ⟨makeScssSimpleTag name kind, ScssParserState.P_STATE_NONE,
             some l, pos + 1, input⟩
        else if c = openBraceChar then
          ScssOutcome.ok
            ⟨makeScssSimpleTag name kind, ScssParserState.P_STATE_IN_DEFINITION,
             some l, pos + 1, input⟩
        else
          parseScssDeclaration fuel input l (pos + 1) (name ++ [c]) kind
      else
        ScssOutcome.ok
          ⟨makeScssSimpleTag name kind, ScssParserState.P_STATE_NONE,
           some l, pos, input⟩

/-- The number of consecutive whitespace characters at the head of a
character list; drives the whitespace skip at the top of the line
loop. -/
def countLeadingWs : List Char → Nat
  | [] => 0
  | c :: cs => if c_isspace c then countLeadingWs cs + 1 else 0

/-- The whitespace skip `while (isspace(*line)) ++line;`: the first
offset at or after `pos` holding a non-whitespace character (the NUL
terminator included). -/
def skipWhitespace (l : ScssLine) (pos : Nat) : Nat :=
  pos + countLeadingWs (l.drop pos)

/-- The directive keyword scan `while (!isspace(*line))` run on the
remainder of the line: it stops at the first whitespace character,
returning the keyword and the offset of that character; reaching the
end of the list means the C loop ran past the terminating NUL into
unowned memory (`none`). -/
def scanKeywordChars : List Char → Option (List Char × Nat)
  | [] => none
  | c :: cs =>
    if c_isspace c then some ([], 0)
    else
      match scanKeywordChars cs with
      | none => none
      | some (kw, n) => some (c :: kw, n + 1)

/-- The `strcmp` chain on a scanned directive keyword, executed with the
state variable holding `P_STATE_NONE`: an unrecognized keyword leaves
the state unchanged. -/
def scssDirectiveState (kw : List Char) : ScssParserState :=
  if kw = "media".toList then ScssParserState.P_STATE_IN_MEDIA
  else if kw = "import".toList then ScssParserState.P_STATE_IN_IMPORT
  else if kw = "namespace".toList then ScssParserState.P_STATE_IN_NAMESPACE
  else if kw = "page".toList then ScssParserState.P_STATE_IN_PAGE
  else if kw = "font-face".toList then ScssParserState.P_STATE_IN_FONTFACE
  else ScssParserState.P_STATE_NONE

/-- The skip loops of the media and import/namespace cases, run on the
remainder of the line: the offset of the first occurrence of `target`
or of a NUL (the virtual terminator at the end of the list included). -/
def skipUntilChar : List Char → Char → Nat
  | [], _ => 0
  | c :: cs, t => if c = t then 0 else if c = nulChar then 0 else skipUntilChar cs t + 1

/-- Result of running `parseScssLine` on one line: the tags emitted,
the state returned, and the input lines still unread (the declaration
scanner may have consumed some mid-line). -/
structure ScssLineResult where
  tags : List ScssTag
  state : ScssParserState
  input : List ScssLine
deriving DecidableEq

/-- Prepend an already-emitted tag to the tags of a later outcome. -/
def consTag (t : ScssTag) : ScssOutcome ScssLineResult → ScssOutcome ScssLineResult
  | ScssOutcome.ok r => ScssOutcome.ok ⟨t :: r.tags, r.state, r.input⟩
  | ScssOutcome.ub ts => ScssOutcome.ub (t :: ts)
  | ScssOutcome.fuelOut => ScssOutcome.fuelOut

/-- The body of `parseScssLine`: one iteration of
`while (*line != '\0')` per fuel step, with the whitespace skip, the
state switch, and the unconditional `line++` at the bottom of the
loop.  Out-of-bounds reads — the loop condition or the directive scan
running past the terminator, and the `*(line-1)` lookbacks of the
comment and string cases landing before the start of the line — yield
`ub`. -/
def parseScssLineLoop :
    Nat → List ScssLine → ScssLine → Nat → ScssParserState →
    ScssOutcome ScssLineResult
  | 0, _, _, _, _ => ScssOutcome.fuelOut
  | fuel+1, input, l, pos, state =>
    match lineChar l pos with
    | none => ScssOutcome.ub []
    | some c0 =>
      if c0 = nulChar then ScssOutcome.ok ⟨[], state, input⟩
      else
        let p := skipWhitespace l pos
        match state with
        | ScssParserState.P_STATE_NONE =>
          let c := lineCharD l p
          if c_isalnum c then
            match parseScssDeclaration fuel input l p [] cssKind.K_SELECTOR with
            | ScssOutcome.ub ts => ScssOutcome.ub ts
            | ScssOutcome.fuelOut => ScssOutcome.fuelOut
            | ScssOutcome.ok r =>
              match r.line with
              | none => ScssOutcome.ok ⟨[r.tag], r.state, r.input⟩
              | some l2 => consTag r.tag (parseScssLineLoop fuel r.input l2 (r.pos + 1) r.state)
          else if c = '.' then
            match parseScssDeclaration fuel input l p [] cssKind.K_CLASS with
            | ScssOutcome.ub ts => ScssOutcome.ub ts
            | ScssOutcome.fuelOut => ScssOutcome.fuelOut
            | ScssOutcome.ok r =>
              match r.line with
              | none => ScssOutcome.ok ⟨[r.tag], r.state, r.input⟩
              | some l2 => consTag r.tag (parseScssLineLoop fuel r.input l2 (r.pos + 1) r.state)
          else if c = '#' then
            match parseScssDeclaration fuel input l p [] cssKind.K_ID with
            | ScssOutcome.ub ts => ScssOutcome.ub ts
            | ScssOutcome.fuelOut => ScssOutcome.fuelOut
            | ScssOutcome.ok r =>
              match r.line with
              | none => ScssOutcome.ok ⟨[r.tag], r.state, r.input⟩
              | some l2 => consTag r.tag (parseScssLineLoop fuel r.input l2 (r.pos + 1) r.state)
          else if c = '@' then
            match scanKeywordChars (l.drop (p + 1)) with
            | none => ScssOutcome.ub []
            | some (kw, n) =>
              parseScssLineLoop fuel input l (p + 1 + n + 1) (scssDirectiveState kw)
          else if c = '*' then
            if p = 0 then ScssOutcome.ub []
            else if lineCharD l (p - 1) = '/' then
              parseScssLineLoop fuel input l (p + 1) ScssParserState.P_STATE_IN_COMMENT
            else
              parseScssLineLoop fuel input l (p + 1) ScssParserState.P_STATE_NONE
          else
            parseScssLineLoop fuel input l (p + 1) ScssParserState.P_STATE_NONE
        | ScssParserState.P_STATE_IN_COMMENT =>
          let c := lineCharD l p
          if c = '/' then
            if p = 0 then ScssOutcome.ub []
            else if lineCharD l (p - 1) = '*' then
              parseScssLineLoop fuel input l (p + 1) ScssParserState.P_STATE_NONE
            else
              parseScssLineLoop fuel input l (p + 1) ScssParserState.P_STATE_IN_COMMENT
          else
            parseScssLineLoop fuel input l (p + 1) ScssParserState.P_STATE_IN_COMMENT
        | ScssParserState.P_STATE_IN_SINGLE_STRING =>
          let c := lineCharD l p
          if c = singleQuoteChar then
            if p = 0 then ScssOutcome.ub []
            else if lineCharD l (p - 1) ≠ backslashChar then
              parseScssLineLoop fuel input l (p + 1) ScssParserState.P_STATE_IN_DEFINITION
            else
              parseScssLineLoop fuel input l (p + 1) ScssParserState.P_STATE_IN_SINGLE_STRING
          else
            parseScssLineLoop fuel input l (p + 1) ScssParserState.P_STATE_IN_SINGLE_STRING
        | ScssParserState.P_STATE_IN_DOUBLE_STRING =>
          let c := lineCharD l p
          if c = doubleQuoteChar then
            if p = 0 then ScssOutcome.ub []
            else if lineCharD l (p - 1) ≠ backslashChar then
              parseScssLineLoop fuel input l (p + 1) ScssParserState.P_STATE_IN_DEFINITION
            else
              parseScssLineLoop fuel input l (p + 1) ScssParserState.P_STATE_IN_DOUBLE_STRING
          else
            parseScssLineLoop fuel input l (p + 1) ScssParserState.P_STATE_IN_DOUBLE_STRING
        | ScssParserState.P_STATE_IN_MEDIA =>
          let stop := p + skipUntilChar (l.drop p) openBraceChar
          if lineCharD l stop = openBraceChar then
            parseScssLineLoop fuel input l (stop + 1) ScssParserState.P_STATE_NONE
          else
            parseScssLineLoop fuel input l (stop + 1) ScssParserState.P_STATE_IN_MEDIA
        | ScssParserState.P_STATE_IN_IMPORT =>
          let stop := p + skipUntilChar (l.drop p) ';'
          if lineCharD l stop = ';' then
            parseScssLineLoop fuel input l (stop + 1) ScssParserState.P_STATE_NONE
          else
            parseScssLineLoop fuel input l (stop + 1) ScssParserState.P_STATE_IN_IMPORT
        | ScssParserState.P_STATE_IN_NAMESPACE =>
          let stop := p + skipUntilChar (l.drop p) ';'
          if lineCharD l stop = ';' then
            parseScssLineLoop fuel input l (stop + 1) ScssParserState.P_STATE_NONE
          else
            parseScssLineLoop fuel input l (stop + 1) ScssParserState.P_STATE_IN_NAMESPACE
        | ScssParserState.P_STATE_IN_PAGE =>
          let c := lineCharD l p
          if c = closeBraceChar then
            parseScssLineLoop fuel input l (p + 1) ScssParserState.P_STATE_NONE
          else if c = singleQuoteChar then
            parseScssLineLoop fuel input l (p + 1) ScssParserState.P_STATE_IN_SINGLE_STRING
          else if c = doubleQuoteChar then
            parseScssLineLoop fuel input l (p + 1) ScssParserState.P_STATE_IN_DOUBLE_STRING
          else
            parseScssLineLoop fuel input l (p + 1) ScssParserState.P_STATE_IN_PAGE
        | ScssParserState.P_STATE_IN_FONTFACE =>
          let c := lineCharD l p
          if c = closeBraceChar then
            parseScssLineLoop fuel input l (p + 1) ScssParserState.P_STATE_NONE
          else if c = singleQuoteChar then
            parseScssLineLoop fuel input l (p + 1) ScssParserState.P_STATE_IN_SINGLE_STRING
          else if c = doubleQuoteChar then
            parseScssLineLoop fuel input l (p + 1) ScssParserState.P_STATE_IN_DOUBLE_STRING
          else
            parseScssLineLoop fuel input l (p + 1) ScssParserState.P_STATE_IN_FONTFACE
        | ScssParserState.P_STATE_IN_DEFINITION =>
          let c := lineCharD l p
          if c = closeBraceChar then
            parseScssLineLoop fuel input l (p + 1) ScssParserState.P_STATE_NONE
          else if c = singleQuoteChar then
            parseScssLineLoop fuel input l (p + 1) ScssParserState.P_STATE_IN_SINGLE_STRING
          else if c = doubleQuoteChar then
            parseScssLineLoop fuel input l (p + 1) ScssParserState.P_STATE_IN_DOUBLE_STRING
          else
            parseScssLineLoop fuel input l (p + 1) ScssParserState.P_STATE_IN_DEFINITION
        | ScssParserState.P_STATE_AT_END =>
          ScssOutcome.ok ⟨[], ScssParserState.P_STATE_AT_END, input⟩

/-- `parseScssLine`: run the line loop from the start of the line. -/
def parseScssLine (fuel : Nat) (input : List ScssLine) (l : ScssLine)
    (state : ScssParserState) : ScssOutcome ScssLineResult :=
  parseScssLineLoop fuel input l 0 state

/-- Result of a whole scan: all tags emitted, the final state, and the
input lines never consumed. -/
structure ScssScanResult where
  tags : List ScssTag
  state : ScssParserState
  input : List ScssLine
deriving DecidableEq

/-- The line loop of `findScssTags`: fetch lines until the source is
exhausted, feeding the state of each line into the next; stop at once
when a line reports `P_STATE_AT_END`. -/
def findScssTagsLoop :
    Nat → List ScssLine → ScssParserState → List ScssTag →
    ScssOutcome ScssScanResult
  | 0, _, _, _ => ScssOutcome.fuelOut
  | fuel+1, input, state, acc =>
    match input with
    | [] => ScssOutcome.ok ⟨acc, state, []⟩
    | l :: rest =>
      match parseScssLineLoop fuel rest l 0 state with
      | ScssOutcome.ub ts => ScssOutcome.ub (acc ++ ts)
      | ScssOutcome.fuelOut => ScssOutcome.fuelOut
      | ScssOutcome.ok r =>
        if r.state = ScssParserState.P_STATE_AT_END then
          ScssOutcome.ok ⟨acc ++ r.tags, r.state, r.input⟩
        else
          findScssTagsLoop fuel r.input r.state (acc ++ r.tags)

/-- `findScssTags`: scan a whole input, the state initialized to
`P_STATE_NONE`. -/
def findScssTags (fuel : Nat) (input : List ScssLine) : ScssOutcome ScssScanResult :=
  findScssTagsLoop fuel input ScssParserState.P_STATE_NONE []

/-- The tags a whole scan emits, when it completes without an
out-of-bounds access. -/
def scssScanTags (fuel : Nat) (input : List ScssLine) : Option (List ScssTag) :=
  match findScssTags fuel input with
  | ScssOutcome.ok r => some r.tags
  | _ => none

/-- Modelled from the spec: the accumulated buffer ends in a
non-whitespace character (or is empty); used to state the trailing-strip
property extensionally. -/
def lastNotWs (n : List Char) : Bool :=
  match n.getLast? with
  | none => true
  | some c => !(c_isspace c)

/-- Helper: dropping while a predicate holds skips over a prefix on
which the predicate holds everywhere. -/
theorem dropWhile_append_of_all (p : Char → Bool) :
    ∀ (u v : List Char), (∀ c ∈ u, p c = true) →
      List.dropWhile p (u ++ v) = List.dropWhile p v
  | [], v, _ => by simp
  | c :: u, v, h => by
    have hc : p c = true := h c (by simp)
    have hu : ∀ c ∈ u, p c = true := fun a ha => h a (by simp [ha])
    simp [List.dropWhile, hc, dropWhile_append_of_all p u v hu]

/-- Helper: stripping trailing whitespace removes exactly a whitespace
suffix, leaving a buffer whose last character is not whitespace
untouched. -/
theorem vStringStripTrailing_append (n w : List Char)
    (hw : w.all c_isspace = true) (hn : lastNotWs n = true) :
    vStringStripTrailing (n ++ w) = n := by
  unfold vStringStripTrailing
  rw [List.reverse_append]
  rw [dropWhile_append_of_all _ w.reverse n.reverse
    (fun c hc => by
      have := List.all_eq_true.mp hw c (List.mem_reverse.mp hc)
      simpa using this)]
  cases hrev : n.reverse with
  | nil =>
    have : n = [] := by simpa using congrArg List.reverse hrev
    simp [this]
  | cons c t =>
    have hlast : n.getLast? = some c := by
      rw [← List.head?_reverse]
      simp [hrev]
    have hc : c_isspace c = false := by
      unfold lastNotWs at hn
      rw [hlast] at hn
      simpa using hn
    rw [List.dropWhile_cons]
    simp [hc, ← hrev]

/-- Claim C1 (counterexample): scanning the line
".foo, .bar \x7b color: red; \x7d" from the initial state does NOT emit
the tags (Class, "foo") and (Class, "bar"): the declaration scanner
starts accumulating at the leading dot itself, so the emitted names
carry it. -/
theorem scss_C1_counterexample :
    scssScanTags 200 [".foo, .bar \x7b color: red; \x7d".toList]
      ≠ some [⟨"foo".toList, cssKind.K_CLASS⟩, ⟨"bar".toList, cssKind.K_CLASS⟩] := by
  decide

/-- Claim C1 (amended): scanning the single line
".foo, .bar \x7b color: red; \x7d" from the initial Neutral state emits
exactly the tags (Class, ".foo") and (Class, ".bar"), in that order —
each name retaining the leading dot of its clause — and emits no tag
for "color". -/
theorem scss_C1_amended :
    findScssTags 200 [".foo, .bar \x7b color: red; \x7d".toList]
      = ScssOutcome.ok
          ⟨[⟨".foo".toList, cssKind.K_CLASS⟩, ⟨".bar".toList, cssKind.K_CLASS⟩],
           ScssParserState.P_STATE_NONE, []⟩ := by
  decide

/-- Claim C2 (counterexample): the character immediately following the
terminator is not entirely unexamined: two lines that differ only in
that character — ".a,/*" versus ".a,x*" — end in different states,
because the skipped character is still read by the previous-character
lookback of the comment-open check at the following position. -/
theorem scss_C2_counterexample :
    parseScssLine 100 [] ".a,/*".toList ScssParserState.P_STATE_NONE
      = ScssOutcome.ok
          ⟨[⟨".a".toList, cssKind.K_CLASS⟩], ScssParserState.P_STATE_IN_COMMENT, []⟩
    ∧ parseScssLine 100 [] ".a,x*".toList ScssParserState.P_STATE_NONE
      = ScssOutcome.ok
          ⟨[⟨".a".toList, cssKind.K_CLASS⟩], ScssParserState.P_STATE_NONE, []⟩ := by
  constructor <;> decide

/-- Claim C2 (amended): after the declaration scanner returns past a
',' or '\x7b' terminator, the dispatcher advances one more character, so
the character immediately following the terminator is never processed
as the current character (it can still be read by a later lookback): in
".a,.b\x7b" the '.' of the second clause is skipped and that clause is
classified from 'b' as a Selector, not a Class (the line then ends in
the out-of-bounds overrun right after the trailing '\x7b'); in
".a\x7b\x7d" the '\x7d' is skipped, leaving the line's final state at
InRuleBody. -/
theorem scss_C2_amended :
    parseScssLine 100 [] ".a,.b\x7b".toList ScssParserState.P_STATE_NONE
      = ScssOutcome.ub [⟨".a".toList, cssKind.K_CLASS⟩, ⟨"b".toList, cssKind.K_SELECTOR⟩]
    ∧ parseScssLine 100 [] ".a\x7b\x7d".toList ScssParserState.P_STATE_NONE
      = ScssOutcome.ok
          ⟨[⟨".a".toList, cssKind.K_CLASS⟩], ScssParserState.P_STATE_IN_DEFINITION, []⟩ := by
  constructor <;> decide

/-- Claim C3 (code bug): when the triggering character of a lookback
check is the first character of the line, the scanner does not treat
the missing preceding character as non-matching — it reads the byte
before the start of the line buffer: a '*' first in Neutral, a '/'
first in InComment, and a quote first in either string state all
perform the out-of-bounds lookback. -/
theorem scss_C3_code_bug :
    parseScssLine 50 [] "*".toList ScssParserState.P_STATE_NONE = ScssOutcome.ub []
    ∧ parseScssLine 50 [] "/".toList ScssParserState.P_STATE_IN_COMMENT = ScssOutcome.ub []
    ∧ parseScssLine 50 [] [singleQuoteChar] ScssParserState.P_STATE_IN_SINGLE_STRING
        = ScssOutcome.ub []
    ∧ parseScssLine 50 [] [doubleQuoteChar] ScssParserState.P_STATE_IN_DOUBLE_STRING
        = ScssOutcome.ub [] := by
  refine ⟨by decide, by decide, by decide, by decide⟩

/-- Claim C4 (code bug): line processing can read past the terminating
NUL: the directive-keyword scan of a line ending in its keyword
("@media"), the post-case advance of a whitespace-only line (" "), and
the media and import scans reaching the line end all run the scan
position past the terminator. -/
theorem scss_C4_code_bug :
    parseScssLine 50 [] "@media".toList ScssParserState.P_STATE_NONE = ScssOutcome.ub []
    ∧ parseScssLine 50 [] " ".toList ScssParserState.P_STATE_NONE = ScssOutcome.ub []
    ∧ parseScssLine 50 [] "x".toList ScssParserState.P_STATE_IN_MEDIA = ScssOutcome.ub []
    ∧ parseScssLine 50 [] "x".toList ScssParserState.P_STATE_IN_IMPORT = ScssOutcome.ub [] := by
  refine ⟨by decide, by decide, by decide, by decide⟩

/-- Claim C5: tag emission strips trailing whitespace only for the
Class kind — a Class buffer loses exactly its whitespace suffix, while
Selector and Id buffers are finalized verbatim — and the line
"p > span \x7b \x7d" emits the single tag (Selector, "p > span ") with
the trailing space retained. -/
theorem scss_C5_claim :
    (∀ (n w : List Char), w.all c_isspace = true → lastNotWs n = true →
        (makeScssSimpleTag (n ++ w) cssKind.K_CLASS).name = n)
    ∧ (∀ b : List Char,
        (makeScssSimpleTag b cssKind.K_SELECTOR).name = b
        ∧ (makeScssSimpleTag b cssKind.K_ID).name = b)
    ∧ parseScssLine 100 [] "p > span \x7b \x7d".toList ScssParserState.P_STATE_NONE
        = ScssOutcome.ok
            ⟨[⟨"p > span ".toList, cssKind.K_SELECTOR⟩], ScssParserState.P_STATE_NONE, []⟩ := by
  refine ⟨?_, ?_, by decide⟩
  · intro n w hw hn
    simp [makeScssSimpleTag, vStringStripTrailing_append n w hw hn]
  · intro b
    constructor <;> simp [makeScssSimpleTag]

/-- Claim C5 (witness): the strip property at a concrete buffer. -/
theorem scss_C5_witness :
    (makeScssSimpleTag (".x y".toList ++ "  ".toList) cssKind.K_CLASS).name = ".x y".toList :=
  scss_C5_claim.1 ".x y".toList "  ".toList (by decide) (by decide)

/-- Claim C8 (code bug): in InMediaDirective a '\x7b' on the line does
send the state back to Neutral, so rules behind it are tagged as
top-level declarations; but when the line ends without a '\x7b' the
scanner does not simply stay in InMediaDirective for the next line —
it advances past the terminating NUL and reads out of bounds, so the
next line is never reached. -/
theorem scss_C8_code_bug :
    findScssTags 100 ["@media screen \x7b".toList, ".x\x7by".toList]
      = ScssOutcome.ok
          ⟨[⟨".x".toList, cssKind.K_CLASS⟩], ScssParserState.P_STATE_IN_DEFINITION, []⟩
    ∧ findScssTags 100 ["@media screen".toList, ".x\x7by".toList] = ScssOutcome.ub [] := by
  constructor <;> decide

/-- Claim C6: when the line source is exhausted while a declaration is
open — the scanner sits at the end of its current line with no further
line available — it emits exactly one tag holding the partial buffer
accumulated so far and reports the Terminated state; the dispatcher
loop, on seeing a Terminated line result, stops at once, consuming no
further line and emitting no further tag; end to end, the single
unterminated line ".foo" yields exactly the one tag (Class, ".foo") and
a Terminated scan. -/
theorem scss_C6_claim :
    (∀ (fuel : Nat) (l : ScssLine) (name : List Char) (kind : cssKind),
        parseScssDeclaration (fuel + 1) [] l l.length name kind
          = ScssOutcome.ok
              ⟨makeScssSimpleTag name kind, ScssParserState.P_STATE_AT_END, none, 0, []⟩)
    ∧ (∀ (fuel : Nat) (l : ScssLine) (rest : List ScssLine)
         (state : ScssParserState) (acc : List ScssTag) (r : ScssLineResult),
        parseScssLineLoop fuel rest l 0 state = ScssOutcome.ok r →
        r.state = ScssParserState.P_STATE_AT_END →
        findScssTagsLoop (fuel + 1) (l :: rest) state acc
          = ScssOutcome.ok ⟨acc ++ r.tags, ScssParserState.P_STATE_AT_END, r.input⟩)
    ∧ findScssTags 100 [".foo".toList]
        = ScssOutcome.ok
            ⟨[⟨".foo".toList, cssKind.K_CLASS⟩], ScssParserState.P_STATE_AT_END, []⟩ := by
  refine ⟨?_, ?_, by decide⟩
  · intro fuel l name kind
    have hc : lineChar l l.length = some nulChar := by simp [lineChar]
    simp [parseScssDeclaration, hc]
  · intro fuel l rest state acc r h hstate
    simp [findScssTagsLoop, h, hstate]

/-- Claim C6 (witness): the end-of-input flush at a concrete buffer and
line, and the dispatcher stop at a concrete Terminated line. -/
theorem scss_C6_witness :
    parseScssDeclaration 3 [] "ab".toList 2 "ab".toList cssKind.K_SELECTOR
      = ScssOutcome.ok
          ⟨⟨"ab".toList, cssKind.K_SELECTOR⟩, ScssParserState.P_STATE_AT_END, none, 0, []⟩
    ∧ findScssTagsLoop 51 [".foo".toList] ScssParserState.P_STATE_NONE []
      = ScssOutcome.ok
          ⟨[⟨".foo".toList, cssKind.K_CLASS⟩], ScssParserState.P_STATE_AT_END, []⟩ :=
  ⟨scss_C6_claim.1 2 "ab".toList "ab".toList cssKind.K_SELECTOR,
   scss_C6_claim.2.1 50 ".foo".toList [] ScssParserState.P_STATE_NONE []
     ⟨[⟨".foo".toList, cssKind.K_CLASS⟩], ScssParserState.P_STATE_AT_END, []⟩
     (by decide) (by decide)⟩

/-- Helper: in either quoted-string state, a line region containing
neither the matching quote nor whitespace is scanned to its end with
the state unchanged and nothing emitted. -/
theorem scssStringStayAux (s : ScssParserState) (q : Char)
    (hs : (s = ScssParserState.P_STATE_IN_SINGLE_STRING ∧ q = singleQuoteChar)
        ∨ (s = ScssParserState.P_STATE_IN_DOUBLE_STRING ∧ q = doubleQuoteChar)) :
    ∀ (fuel : Nat) (input : List ScssLine) (l : ScssLine) (pos : Nat),
      pos ≤ l.length →
      (∀ c ∈ l.drop pos, c_isspace c = false ∧ c ≠ q) →
      l.length - pos < fuel →
      parseScssLineLoop fuel input l pos s = ScssOutcome.ok ⟨[], s, input⟩ := by
  rcases hs with ⟨hs, hq⟩ | ⟨hs, hq⟩ <;> subst hs <;> subst hq <;>
  · intro fuel
    induction fuel with
    | zero =>
      intro input l pos hle h hf
      omega
    | succ n ih =>
      intro input l pos hle h hf
      by_cases hpos : pos < l.length
      · have hdrop : l.drop pos = l[pos] :: l.drop (pos + 1) :=
          List.drop_eq_getElem_cons hpos
        have hc := h (l[pos]) (by rw [hdrop]; exact List.mem_cons_self _ _)
        have hlc : lineChar l pos = some (l[pos]) := by
          simp [lineChar, hpos]
        by_cases hnul : l[pos] = nulChar
        · simp [parseScssLineLoop, hlc, hnul]
        · have hskip : skipWhitespace l pos = pos := by
            unfold skipWhitespace
            rw [hdrop]
            simp [countLeadingWs, hc.1]
          have hcd : lineCharD l pos = l[pos] := by
            simp [lineCharD, hpos]
          have hrec := ih input l (pos + 1) (by omega)
            (fun c hcmem => h c (by rw [hdrop]; exact List.mem_cons_of_mem _ hcmem))
            (by omega)
          simp [parseScssLineLoop, hlc, hnul, hskip, hcd, hc.2, hrec]
      · have hpe : pos = l.length := by omega
        have hlc : lineChar l pos = some nulChar := by
          simp [lineChar, hpe]
        simp [parseScssLineLoop, hlc]

/-- Claim C9: in InSingleQuoteString (respectively InDoubleQuoteString)
the scanner stays put across any stretch free of the matching quote,
and on a matching quote whose immediately preceding character is not a
backslash it moves to InRuleBody, while a backslash-escaped quote does
not end the string: shown by the stay property over arbitrary
quote-free regions and by the concrete lines "x'", "\'", "x\"" and
"\\\"". -/
theorem scss_C9_claim :
    (∀ (fuel : Nat) (input : List ScssLine) (l : ScssLine) (pos : Nat),
        pos ≤ l.length →
        (∀ c ∈ l.drop pos, c_isspace c = false ∧ c ≠ singleQuoteChar) →
        l.length - pos < fuel →
        parseScssLineLoop fuel input l pos ScssParserState.P_STATE_IN_SINGLE_STRING
          = ScssOutcome.ok ⟨[], ScssParserState.P_STATE_IN_SINGLE_STRING, input⟩)
    ∧ (∀ (fuel : Nat) (input : List ScssLine) (l : ScssLine) (pos : Nat),
        pos ≤ l.length →
        (∀ c ∈ l.drop pos, c_isspace c = false ∧ c ≠ doubleQuoteChar) →
        l.length - pos < fuel →
        parseScssLineLoop fuel input l pos ScssParserState.P_STATE_IN_DOUBLE_STRING
          = ScssOutcome.ok ⟨[], ScssParserState.P_STATE_IN_DOUBLE_STRING, input⟩)
    ∧ parseScssLine 50 [] ("x".toList ++ [singleQuoteChar])
        ScssParserState.P_STATE_IN_SINGLE_STRING
        = ScssOutcome.ok ⟨[], ScssParserState.P_STATE_IN_DEFINITION, []⟩
    ∧ parseScssLine 50 [] [backslashChar, singleQuoteChar]
        ScssParserState.P_STATE_IN_SINGLE_STRING
        = ScssOutcome.ok ⟨[], ScssParserState.P_STATE_IN_SINGLE_STRING, []⟩
    ∧ parseScssLine 50 [] ("x".toList ++ [doubleQuoteChar])
        ScssParserState.P_STATE_IN_DOUBLE_STRING
        = ScssOutcome.ok ⟨[], ScssParserState.P_STATE_IN_DEFINITION, []⟩
    ∧ parseScssLine 50 [] [backslashChar, doubleQuoteChar]
        ScssParserState.P_STATE_IN_DOUBLE_STRING
        = ScssOutcome.ok ⟨[], ScssParserState.P_STATE_IN_DOUBLE_STRING, []⟩ :=
  ⟨scssStringStayAux _ _ (Or.inl ⟨rfl, rfl⟩),
   scssStringStayAux _ _ (Or.inr ⟨rfl, rfl⟩),
   by decide, by decide, by decide, by decide⟩

/-- Claim C9 (witness): the stay property at the concrete quote-free
line "ab". -/
theorem scss_C9_witness :
    parseScssLineLoop 5 [] "ab".toList 0 ScssParserState.P_STATE_IN_SINGLE_STRING
      = ScssOutcome.ok ⟨[], ScssParserState.P_STATE_IN_SINGLE_STRING, []⟩ :=
  scss_C9_claim.1 5 [] "ab".toList 0 (by decide) (by decide) (by decide)

/-- Helper: the page and font-face states run the same case body as the
generic rule-body state, so a line is processed identically from either
of them; the runs coincide outright except when the whole line leaves
the state untouched, where each run ends in its own state with nothing
emitted and nothing consumed. -/
theorem scssBodyLikeAux (s : ScssParserState)
    (hs : s = ScssParserState.P_STATE_IN_PAGE ∨ s = ScssParserState.P_STATE_IN_FONTFACE) :
    ∀ (fuel : Nat) (input : List ScssLine) (l : ScssLine) (pos : Nat),
      parseScssLineLoop fuel input l pos s
          = parseScssLineLoop fuel input l pos ScssParserState.P_STATE_IN_DEFINITION
        ∨ (parseScssLineLoop fuel input l pos s = ScssOutcome.ok ⟨[], s, input⟩
           ∧ parseScssLineLoop fuel input l pos ScssParserState.P_STATE_IN_DEFINITION
               = ScssOutcome.ok
                   ⟨[], ScssParserState.P_STATE_IN_DEFINITION, input⟩) := by
  rcases hs with hs | hs <;> subst hs <;>
  · intro fuel
    induction fuel with
    | zero =>
      intro input l pos
      exact Or.inl rfl
    | succ n ih =>
      intro input l pos
      cases hlc : lineChar l pos with
      | none =>
        left
        simp [parseScssLineLoop, hlc]
      | some c0 =>
        by_cases h0 : c0 = nulChar
        · right
          constructor <;> simp [parseScssLineLoop, hlc, h0]
        · by_cases hb : lineCharD l (skipWhitespace l pos) = closeBraceChar
          · left
            simp [parseScssLineLoop, hlc, h0, hb]
          · by_cases hq : lineCharD l (skipWhitespace l pos) = singleQuoteChar
            · left
              simp [parseScssLineLoop, hlc, h0, hb, hq]
            · by_cases hd : lineCharD l (skipWhitespace l pos) = doubleQuoteChar
              · left
                simp [parseScssLineLoop, hlc, h0, hb, hq, hd]
              · rcases ih input l (skipWhitespace l pos + 1) with h1 | ⟨h1, h2⟩
                · left
                  simp [parseScssLineLoop, hlc, h0, hb, hq, hd, h1]
                · right
                  constructor <;> simp [parseScssLineLoop, hlc, h0, hb, hq, hd, h1, h2]

/-- Claim C7: in Neutral state an '@' makes the scanner read the
following run of non-whitespace characters as a directive keyword and
match it case-sensitively: the scan collects exactly the non-whitespace
run before the next whitespace character; "media" maps to the media
state, "import" and "namespace" to the import/namespace states, "page"
and "font-face" to states whose lines are processed exactly as the
generic rule-body state processes them, and any other keyword leaves
the state at Neutral — demonstrated end to end on the lines "@media ",
"@import ", "@namespace ", "@page ", "@font-face ", "@foobar " and
(case sensitivity) "@Media ". -/
theorem scss_C7_claim :
    (∀ (kw : List Char) (c : Char) (rest : List Char),
        kw.all (fun a => !(c_isspace a)) = true → c_isspace c = true →
        scanKeywordChars (kw ++ c :: rest) = some (kw, kw.length))
    ∧ (scssDirectiveState "media".toList = ScssParserState.P_STATE_IN_MEDIA
       ∧ scssDirectiveState "import".toList = ScssParserState.P_STATE_IN_IMPORT
       ∧ scssDirectiveState "namespace".toList = ScssParserState.P_STATE_IN_NAMESPACE
       ∧ scssDirectiveState "page".toList = ScssParserState.P_STATE_IN_PAGE
       ∧ scssDirectiveState "font-face".toList = ScssParserState.P_STATE_IN_FONTFACE)
    ∧ (∀ kw : List Char, kw ≠ "media".toList → kw ≠ "import".toList →
        kw ≠ "namespace".toList → kw ≠ "page".toList → kw ≠ "font-face".toList →
        scssDirectiveState kw = ScssParserState.P_STATE_NONE)
    ∧ (∀ (fuel : Nat) (input : List ScssLine) (l : ScssLine) (pos : Nat),
        parseScssLineLoop fuel input l pos ScssParserState.P_STATE_IN_PAGE
            = parseScssLineLoop fuel input l pos ScssParserState.P_STATE_IN_DEFINITION
          ∨ (parseScssLineLoop fuel input l pos ScssParserState.P_STATE_IN_PAGE
               = ScssOutcome.ok ⟨[], ScssParserState.P_STATE_IN_PAGE, input⟩
             ∧ parseScssLineLoop fuel input l pos ScssParserState.P_STATE_IN_DEFINITION
                 = ScssOutcome.ok ⟨[], ScssParserState.P_STATE_IN_DEFINITION, input⟩))
    ∧ (∀ (fuel : Nat) (input : List ScssLine) (l : ScssLine) (pos : Nat),
        parseScssLineLoop fuel input l pos ScssParserState.P_STATE_IN_FONTFACE
            = parseScssLineLoop fuel input l pos ScssParserState.P_STATE_IN_DEFINITION
          ∨ (parseScssLineLoop fuel input l pos ScssParserState.P_STATE_IN_FONTFACE
               = ScssOutcome.ok ⟨[], ScssParserState.P_STATE_IN_FONTFACE, input⟩
             ∧ parseScssLineLoop fuel input l pos ScssParserState.P_STATE_IN_DEFINITION
                 = ScssOutcome.ok ⟨[], ScssParserState.P_STATE_IN_DEFINITION, input⟩))
    ∧ (parseScssLine 50 [] "@media ".toList ScssParserState.P_STATE_NONE
        = ScssOutcome.ok ⟨[], ScssParserState.P_STATE_IN_MEDIA, []⟩
       ∧ parseScssLine 50 [] "@import ".toList ScssParserState.P_STATE_NONE
        = ScssOutcome.ok ⟨[], ScssParserState.P_STATE_IN_IMPORT, []⟩
       ∧ parseScssLine 50 [] "@namespace ".toList ScssParserState.P_STATE_NONE
        = ScssOutcome.ok ⟨[], ScssParserState.P_STATE_IN_NAMESPACE, []⟩
       ∧ parseScssLine 50 [] "@page ".toList ScssParserState.P_STATE_NONE
        = ScssOutcome.ok ⟨[], ScssParserState.P_STATE_IN_PAGE, []⟩
       ∧ parseScssLine 50 [] "@font-face ".toList ScssParserState.P_STATE_NONE
        = ScssOutcome.ok ⟨[], ScssParserState.P_STATE_IN_FONTFACE, []⟩
       ∧ parseScssLine 50 [] "@foobar ".toList ScssParserState.P_STATE_NONE
        = ScssOutcome.ok ⟨[], ScssParserState.P_STATE_NONE, []⟩
       ∧ parseScssLine 50 [] "@Media ".toList ScssParserState.P_STATE_NONE
        = ScssOutcome.ok ⟨[], ScssParserState.P_STATE_NONE, []⟩) := by
  refine ⟨?_, by decide, ?_,
    scssBodyLikeAux _ (Or.inl rfl), scssBodyLikeAux _ (Or.inr rfl),
    by decide, by decide, by decide, by decide, by decide, by decide, by decide⟩
  · intro kw
    induction kw with
    | nil =>
      intro c rest _ hc
      simp [scanKeywordChars, hc]
    | cons a kw ih =>
      intro c rest hkw hc
      have ha : c_isspace a = false := by
        have := List.all_eq_true.mp hkw a (by simp)
        simpa using this
      have hkw2 : kw.all (fun a => !(c_isspace a)) = true :=
        List.all_eq_true.mpr fun x hx => List.all_eq_true.mp hkw x (by simp [hx])
      simp [scanKeywordChars, ha, ih c rest hkw2 hc]
  · intro kw h1 h2 h3 h4 h5
    unfold scssDirectiveState
    rw [if_neg h1, if_neg h2, if_neg h3, if_neg h4, if_neg h5]

/-- Claim C7 (witness): the keyword scan and the default directive
mapping at concrete keywords. -/
theorem scss_C7_witness :
    scanKeywordChars ("media".toList ++ ' ' :: "x".toList) = some ("media".toList, 5)
    ∧ scssDirectiveState "foobar".toList = ScssParserState.P_STATE_NONE :=
  ⟨scss_C7_claim.1 "media".toList ' ' "x".toList (by decide) (by decide),
   scss_C7_claim.2.2.1 "foobar".toList (by decide) (by decide) (by decide)
     (by decide) (by decide)⟩

/-- Helper: the declaration scanner reports the end state exactly when
it stored a NULL line pointer, which happens exactly on the
end-of-input path, with the whole input consumed. -/
theorem parseScssDeclaration_atEnd_iff :
    ∀ (fuel : Nat) (input : List ScssLine) (l : ScssLine) (pos : Nat)
      (name : List Char) (kind : cssKind) (r : ScssDeclResult),
      parseScssDeclaration fuel input l pos name kind = ScssOutcome.ok r →
      (r.state = ScssParserState.P_STATE_AT_END ↔ r.line = none ∧ r.input = []) := by
  intro fuel
  induction fuel with
  | zero =>
    intro input l pos name kind r h
    simp [parseScssDeclaration] at h
  | succ n ih =>
    intro input l pos name kind r h
    simp only [parseScssDeclaration] at h
    split at h
    · exact ScssOutcome.noConfusion h
    · split at h
      · split at h
        · split at h
          · injection h with h2
            subst h2
            simp
          · exact ih _ _ _ _ _ _ h
        · split at h
          · injection h with h2
            subst h2
            simp
          · split at h
            · injection h with h2
              subst h2
              simp
            · exact ih _ _ _ _ _ _ h
      · injection h with h2
        subst h2
        simp

/-- Helper: inverting tag prepending on a successful outcome. -/
theorem consTag_eq_ok (t : ScssTag) (o : ScssOutcome ScssLineResult) (r : ScssLineResult)
    (h : consTag t o = ScssOutcome.ok r) :
    ∃ r1, o = ScssOutcome.ok r1 ∧ r = ⟨t :: r1.tags, r1.state, r1.input⟩ := by
  cases o with
  | ok r1 =>
    refine ⟨r1, rfl, ?_⟩
    injection h with h2
    exact h2.symm
  | ub ts => exact ScssOutcome.noConfusion h
  | fuelOut => exact ScssOutcome.noConfusion h

/-- Helper: no directive keyword maps to the end state. -/
theorem scssDirectiveState_ne_atEnd (kw : List Char) :
    scssDirectiveState kw ≠ ScssParserState.P_STATE_AT_END := by
  unfold scssDirectiveState
  split_ifs <;> simp

/-- Helper: a dispatcher branch that ran the declaration scanner and
ended in the end state did so because the scanner exhausted the input,
leaving no unread line and a just-flushed tag in the output. -/
theorem scssDeclBranchAtEnd
    (n : Nat) (input : List ScssLine) (l : ScssLine) (p2 : Nat) (kind : cssKind)
    (r : ScssLineResult)
    (ih : ∀ (input2 : List ScssLine) (l2 : ScssLine) (pos2 : Nat)
        (state2 : ScssParserState) (r2 : ScssLineResult),
        parseScssLineLoop n input2 l2 pos2 state2 = ScssOutcome.ok r2 →
        r2.state = ScssParserState.P_STATE_AT_END →
        state2 = ScssParserState.P_STATE_AT_END ∨ (r2.input = [] ∧ r2.tags ≠ []))
    (h : (match parseScssDeclaration n input l p2 [] kind with
          | ScssOutcome.ub ts => ScssOutcome.ub ts
          | ScssOutcome.fuelOut => ScssOutcome.fuelOut
          | ScssOutcome.ok r0 =>
            match r0.line with
            | none => ScssOutcome.ok ⟨[r0.tag], r0.state, r0.input⟩
            | some l2 => consTag r0.tag (parseScssLineLoop n r0.input l2 (r0.pos + 1) r0.state))
         = ScssOutcome.ok r)
    (hr : r.state = ScssParserState.P_STATE_AT_END) :
    r.input = [] ∧ r.tags ≠ [] := by
  split at h
  · exact ScssOutcome.noConfusion h
  · exact ScssOutcome.noConfusion h
  · rename_i r0 hd
    split at h
    · injection h with h2
      subst h2
      rcases (parseScssDeclaration_atEnd_iff _ _ _ _ _ _ _ hd).mp hr with ⟨_, hinput⟩
      exact ⟨hinput, by simp⟩
    · rename_i l2 hline
      rcases consTag_eq_ok _ _ _ h with ⟨r1, hrec, rfl⟩
      have h1 := ih _ _ _ _ _ hrec hr
      rcases h1 with h1 | h1
      · have h2 := (parseScssDeclaration_atEnd_iff _ _ _ _ _ _ _ hd).mp h1
        rw [hline] at h2
        exact absurd h2.1 (by simp)
      · exact ⟨h1.1, by simp⟩

/-- Helper: a line run that returns the end state either started in it
or reached it inside the declaration scanner on exhausted input,
leaving no unread line and at least the flushed tag emitted. -/
theorem parseScssLineLoop_atEnd :
    ∀ (fuel : Nat) (input : List ScssLine) (l : ScssLine) (pos : Nat)
      (state : ScssParserState) (r : ScssLineResult),
      parseScssLineLoop fuel input l pos state = ScssOutcome.ok r →
      r.state = ScssParserState.P_STATE_AT_END →
      state = ScssParserState.P_STATE_AT_END ∨ (r.input = [] ∧ r.tags ≠ []) := by
  intro fuel
  induction fuel with
  | zero =>
    intro input l pos state r h hr
    exact ScssOutcome.noConfusion h
  | succ n ih =>
    intro input l pos state r h hr
    cases state with
    | P_STATE_NONE =>
      simp only [parseScssLineLoop] at h
      split at h
      · exact ScssOutcome.noConfusion h
      · split at h
        · injection h with h2
          subst h2
          exact Or.inl hr
        · split at h
          · exact Or.inr (scssDeclBranchAtEnd _ _ _ _ _ _ ih h hr)
          · split at h
            · exact Or.inr (scssDeclBranchAtEnd _ _ _ _ _ _ ih h hr)
            · split at h
              · exact Or.inr (scssDeclBranchAtEnd _ _ _ _ _ _ ih h hr)
              · split at h
                · split at h
                  · exact ScssOutcome.noConfusion h
                  · exact Or.inr ((ih _ _ _ _ _ h hr).resolve_left (scssDirectiveState_ne_atEnd _))
                · split at h
                  · split at h
                    · exact ScssOutcome.noConfusion h
                    · split at h
                      · exact Or.inr ((ih _ _ _ _ _ h hr).resolve_left (by decide))
                      · exact Or.inr ((ih _ _ _ _ _ h hr).resolve_left (by decide))
                  · exact Or.inr ((ih _ _ _ _ _ h hr).resolve_left (by decide))
    | P_STATE_IN_COMMENT =>
      simp only [parseScssLineLoop] at h
      split at h
      · exact ScssOutcome.noConfusion h
      · split at h
        · injection h with h2
          subst h2
          exact Or.inl hr
        · split at h
          · split at h
            · exact ScssOutcome.noConfusion h
            · split at h
              · exact Or.inr ((ih _ _ _ _ _ h hr).resolve_left (by decide))
              · exact Or.inr ((ih _ _ _ _ _ h hr).resolve_left (by decide))
          · exact Or.inr ((ih _ _ _ _ _ h hr).resolve_left (by decide))
    | P_STATE_IN_SINGLE_STRING =>
      simp only [parseScssLineLoop] at h
      split at h
      · exact ScssOutcome.noConfusion h
      · split at h
        · injection h with h2
          subst h2
          exact Or.inl hr
        · split at h
          · split at h
            · exact ScssOutcome.noConfusion h
            · split at h
              · exact Or.inr ((ih _ _ _ _ _ h hr).resolve_left (by decide))
              · exact Or.inr ((ih _ _ _ _ _ h hr).resolve_left (by decide))
          · exact Or.inr ((ih _ _ _ _ _ h hr).resolve_left (by decide))
    | P_STATE_IN_DOUBLE_STRING =>
      simp only [parseScssLineLoop] at h
      split at h
      · exact ScssOutcome.noConfusion h
      · split at h
        · injection h with h2
          subst h2
          exact Or.inl hr
        · split at h
          · split at h
            · exact ScssOutcome.noConfusion h
            · split at h
              · exact Or.inr ((ih _ _ _ _ _ h hr).resolve_left (by decide))
              · exact Or.inr ((ih _ _ _ _ _ h hr).resolve_left (by decide))
          · exact Or.inr ((ih _ _ _ _ _ h hr).resolve_left (by decide))
    | P_STATE_IN_MEDIA =>
      simp only [parseScssLineLoop] at h
      split at h
      · exact ScssOutcome.noConfusion h
      · split at h
        · injection h with h2
          subst h2
          exact Or.inl hr
        · split at h
          · exact Or.inr ((ih _ _ _ _ _ h hr).resolve_left (by decide))
          · exact Or.inr ((ih _ _ _ _ _ h hr).resolve_left (by decide))
    | P_STATE_IN_IMPORT =>
      simp only [parseScssLineLoop] at h
      split at h
      · exact ScssOutcome.noConfusion h
      · split at h
        · injection h with h2
          subst h2
          exact Or.inl hr
        · split at h
          · exact Or.inr ((ih _ _ _ _ _ h hr).resolve_left (by decide))
          · exact Or.inr ((ih _ _ _ _ _ h hr).resolve_left (by decide))
    | P_STATE_IN_NAMESPACE =>
      simp only [parseScssLineLoop] at h
      split at h
      · exact ScssOutcome.noConfusion h
      · split at h
        · injection h with h2
          subst h2
          exact Or.inl hr
        · split at h
          · exact Or.inr ((ih _ _ _ _ _ h hr).resolve_left (by decide))
          · exact Or.inr ((ih _ _ _ _ _ h hr).resolve_left (by decide))
    | P_STATE_IN_PAGE =>
      simp only [parseScssLineLoop] at h
      split at h
      · exact ScssOutcome.noConfusion h
      · split at h
        · injection h with h2
          subst h2
          exact Or.inl hr
        · split at h
          · exact Or.inr ((ih _ _ _ _ _ h hr).resolve_left (by decide))
          · split at h
            · exact Or.inr ((ih _ _ _ _ _ h hr).resolve_left (by decide))
            · split at h
              · exact Or.inr ((ih _ _ _ _ _ h hr).resolve_left (by decide))
              · exact Or.inr ((ih _ _ _ _ _ h hr).resolve_left (by decide))
    | P_STATE_IN_FONTFACE =>
      simp only [parseScssLineLoop] at h
      split at h
      · exact ScssOutcome.noConfusion h
      · split at h
        · injection h with h2
          subst h2
          exact Or.inl hr
        · split at h
          · exact Or.inr ((ih _ _ _ _ _ h hr).resolve_left (by decide))
          · split at h
            · exact Or.inr ((ih _ _ _ _ _ h hr).resolve_left (by decide))
            · split at h
              · exact Or.inr ((ih _ _ _ _ _ h hr).resolve_left (by decide))
              · exact Or.inr ((ih _ _ _ _ _ h hr).resolve_left (by decide))
    | P_STATE_IN_DEFINITION =>
      simp only [parseScssLineLoop] at h
      split at h
      · exact ScssOutcome.noConfusion h
      · split at h
        · injection h with h2
          subst h2
          exact Or.inl hr
        · split at h
          · exact Or.inr ((ih _ _ _ _ _ h hr).resolve_left (by decide))
          · split at h
            · exact Or.inr ((ih _ _ _ _ _ h hr).resolve_left (by decide))
            · split at h
              · exact Or.inr ((ih _ _ _ _ _ h hr).resolve_left (by decide))
              · exact Or.inr ((ih _ _ _ _ _ h hr).resolve_left (by decide))
    | P_STATE_AT_END =>
      exact Or.inl rfl

/-- Helper: a whole scan that ends in the end state either started a
line in it or consumed the entire input reaching it. -/
theorem findScssTagsLoop_atEnd :
    ∀ (fuel : Nat) (input : List ScssLine) (state : ScssParserState)
      (acc : List ScssTag) (r : ScssScanResult),
      findScssTagsLoop fuel input state acc = ScssOutcome.ok r →
      r.state = ScssParserState.P_STATE_AT_END →
      state = ScssParserState.P_STATE_AT_END ∨ r.input = [] := by
  intro fuel
  induction fuel with
  | zero =>
    intro input state acc r h hr
    exact ScssOutcome.noConfusion h
  | succ n ih =>
    intro input state acc r h hr
    cases input with
    | nil =>
      simp only [findScssTagsLoop] at h
      injection h with h2
      subst h2
      exact Or.inl hr
    | cons l rest =>
      simp only [findScssTagsLoop] at h
      split at h
      · exact ScssOutcome.noConfusion h
      · exact ScssOutcome.noConfusion h
      · rename_i r0 hp
        split at h
        · injection h with h2
          subst h2
          exact (parseScssLineLoop_atEnd n rest l 0 state r0 hp hr).imp_right And.left
        · rename_i hcond
          exact Or.inr ((ih _ _ _ _ h hr).resolve_left hcond)

/-- Claim C10: the scan state is initialized to Neutral for a whole
input; the declaration scanner reports Terminated exactly on its
end-of-input path, which leaves no unread line; a line run ending
Terminated either started so or hit that declaration path with the
input fully consumed (and a tag flushed); and the whole scan ends
Terminated only with the input fully consumed — no other transition
yields Terminated. -/
theorem scss_C10_claim :
    (∀ (fuel : Nat) (input : List ScssLine),
        findScssTags fuel input
          = findScssTagsLoop fuel input ScssParserState.P_STATE_NONE [])
    ∧ (∀ (fuel : Nat) (input : List ScssLine) (l : ScssLine) (pos : Nat)
         (name : List Char) (kind : cssKind) (r : ScssDeclResult),
        parseScssDeclaration fuel input l pos name kind = ScssOutcome.ok r →
        (r.state = ScssParserState.P_STATE_AT_END ↔ r.line = none ∧ r.input = []))
    ∧ (∀ (fuel : Nat) (input : List ScssLine) (l : ScssLine) (pos : Nat)
         (state : ScssParserState) (r : ScssLineResult),
        parseScssLineLoop fuel input l pos state = ScssOutcome.ok r →
        r.state = ScssParserState.P_STATE_AT_END →
        state = ScssParserState.P_STATE_AT_END ∨ (r.input = [] ∧ r.tags ≠ []))
    ∧ (∀ (fuel : Nat) (input : List ScssLine) (state : ScssParserState)
         (acc : List ScssTag) (r : ScssScanResult),
        findScssTagsLoop fuel input state acc = ScssOutcome.ok r →
        r.state = ScssParserState.P_STATE_AT_END →
        state = ScssParserState.P_STATE_AT_END ∨ r.input = []) :=
  ⟨fun _ _ => rfl, parseScssDeclaration_atEnd_iff, parseScssLineLoop_atEnd,
   findScssTagsLoop_atEnd⟩

/-- Claim C10 (witness): the line-level Terminated characterization at
the concrete unterminated line ".foo". -/
theorem scss_C10_witness :
    ScssParserState.P_STATE_NONE = ScssParserState.P_STATE_AT_END
      ∨ (([] : List ScssLine) = []
         ∧ ([⟨".foo".toList, cssKind.K_CLASS⟩] : List ScssTag) ≠ []) :=
  scss_C10_claim.2.2.1 50 [] ".foo".toList 0 ScssParserState.P_STATE_NONE
    ⟨[⟨".foo".toList, cssKind.K_CLASS⟩], ScssParserState.P_STATE_AT_END, []⟩
    (by decide) (by decide)
